import Mathlib

/-!
# Compiler_PlatformMacOSX.cpp: asynchronous compiler launch and completion poll

A shallow embedding of `Aurora/RuntimeCompiler/Compiler_PlatformMacOSX.cpp`.

* The handle `PlatformCompilerImplData` is a record; the member functions of
  `Compiler` take it explicitly and return the updated record.
* Every call into the operating system or the logger is recorded, in program
  order, in a list of `Effect`s.  What the operating system answers (the
  descriptors `pipe` hands out, the value `fork` returns, the chunks `read`
  delivers, what `waitpid` returns and stores) is an explicit input.
* Storage the program reads before writing it (`buffer`, `procStatus`) holds
  whatever the stack held; that content is an explicit input as well.
* `pid_t` and `int` are `Int`; a `char` is a `Nat` below 256.
-/

set_option linter.unusedVariables false

namespace Compiler

/-! ## Data model -/

/-- The class `PlatformCompilerImplData` (lines 38-55).  `m_pLogger` records whether
the logger pointer is non-null; the two cells of `m_PipeInOut` are separate fields. -/
structure PlatformCompilerImplData where
  m_intermediatePath : String
  m_bCompileIsComplete : Bool
  m_pLogger : Bool
  m_ChildForCompilationPID : Int
  m_PipeInOut0 : Int
  m_PipeInOut1 : Int
deriving DecidableEq, Repr

/-- One observable action of the process, in the order the program performs them. -/
inductive Effect where
  /-- A `read( fd, buffer, 512 )` that delivered `bytes`; the empty list stands for a
  return value that is not positive. -/
  | read (fd : Int) (bytes : List Nat)
  /-- A call `m_pLogger->LogInfo( text )`, with the C string the callee sees. -/
  | logInfo (text : List Nat)
  /-- A call `m_pLogger->LogError( text )`. -/
  | logError (text : String)
  /-- A call `waitpid( pid, &procStatus, WNOHANG )`. -/
  | waitpid (pid : Int)
  /-- A call `close( fd )`. -/
  | close (fd : Int)
  /-- A call `pipe( m_PipeInOut )` and the descriptors it stored, if it succeeded. -/
  | pipe (result : Option (Int × Int))
  /-- A call `fork()` and the value it returned in this process. -/
  | fork (result : Int)
  /-- A call `dup2( oldfd, newfd )`. -/
  | dup2 (oldfd newfd : Int)
  /-- Text written to `cout`. -/
  | cout (text : String)
  /-- A call `execl( path, arg0, arg1, arg2, NULL )`, each argument as the C string the
  callee reads. -/
  | execl (path arg0 arg1 arg2 : String)
deriving DecidableEq, Repr

/-- The constructor of `PlatformCompilerImplData` (lines 41-48). -/
def PlatformCompilerImplData.ctor : PlatformCompilerImplData :=
  { m_intermediatePath := ""
    m_bCompileIsComplete := false
    m_pLogger := false
    m_ChildForCompilationPID := 0
    m_PipeInOut0 := 0
    m_PipeInOut1 := 1 }

/-- The function `Compiler::Initialise` (lines 104-128), as far as the handle goes: a new
`PlatformCompilerImplData` with the logger and the intermediate path set.  The
rest of the function removes the directory `Runtime` and touches neither the
handle nor any descriptor. -/
def Initialise (pLogger : Bool) : PlatformCompilerImplData :=
  { PlatformCompilerImplData.ctor with
    m_pLogger := pLogger
    m_intermediatePath := "Runtime" }

/-! ## The command string (lines 175-196) -/

/-- The body of the loop at lines 178-181, folded over `includeDirList`. -/
def appendIncludeDirs (compileString : String) (includeDirList : List String) : String :=
  includeDirList.foldl (fun s d => s ++ (("-I\"" ++ d) ++ "\" ")) compileString

/-- The body of the loop at lines 184-187, folded over `libraryDirList`. -/
def appendLibraryDirs (compileString : String) (libraryDirList : List String) : String :=
  libraryDirList.foldl (fun s d => s ++ (("-L\"" ++ d) ++ "\" ")) compileString

/-- The body of the loop at lines 193-196, folded over `filesToCompile`. -/
def appendFilesToCompile (compileString : String) (filesToCompile : List String) : String :=
  filesToCompile.foldl (fun s f => s ++ (("\"" ++ f) ++ "\" ")) compileString

/-- The value of the local `compileString` at line 198. -/
def compileString (filesToCompile includeDirList libraryDirList : List String)
    (outputFile : String) : String :=
  let s0 := "clang++ -g -O0 -fvisibility=hidden -Xlinker -dylib "
  let s1 := appendIncludeDirs s0 includeDirList
  let s2 := appendLibraryDirs s1 libraryDirList
  let s3 := s2 ++ (("-o " ++ outputFile) ++ " ")
  appendFilesToCompile s3 filesToCompile

/-- The C string behind `s.c_str()` as a callee reads it: the characters before the
first zero character. -/
def c_str (s : String) : String :=
  ⟨s.data.takeWhile (fun c => c != Char.ofNat 0)⟩

/-- The command as the specification words it: the fixed flags, one quoted `-I` flag
per include directory, one quoted `-L` flag per library directory, the output
flag, then the quoted sources. -/
def specCommand (S I L : List String) (o : String) : String :=
  "clang++ -g -O0 -fvisibility=hidden -Xlinker -dylib "
    ++ String.join (I.map (fun d => "-I\"" ++ d ++ "\" "))
    ++ String.join (L.map (fun d => "-L\"" ++ d ++ "\" "))
    ++ "-o " ++ o ++ " "
    ++ String.join (S.map (fun s => "\"" ++ s ++ "\" "))

/-! ## Tokens of a command, as the specification counts them -/

/-- State of the left-to-right scan that splits a command into tokens: the tokens
finished so far, the token being read, and whether the scan is inside double
quotes. -/
structure SplitState where
  done : List (List Char)
  word : List Char
  quoted : Bool
deriving DecidableEq, Repr

/-- One character of the scan.  A double quote (code 34) joins the token and flips the
quoting state; a space (code 32) outside double quotes ends the token; any other
character joins the token. -/
def splitStep (st : SplitState) (c : Char) : SplitState :=
  if c = Char.ofNat 34 then
    { done := st.done, word := st.word ++ [c], quoted := !st.quoted }
  else if c = Char.ofNat 32 ∧ st.quoted = false then
    { done := st.done ++ [st.word], word := [], quoted := false }
  else
    { done := st.done, word := st.word ++ [c], quoted := st.quoted }

/-- The tokens of a command as the specification counts them: the pieces between the
spaces that lie outside double quotes, quotes kept.  A last piece not followed
by a space counts when it is not empty. -/
def specTokens (command : String) : List String :=
  let st := command.data.foldl splitStep { done := [], word := [], quoted := false }
  (st.done ++ (if st.word = [] then [] else [st.word])).map String.mk

/-- Whether a path holds no double quote. -/
def quoteFree (p : String) : Bool := p.data.all (fun c => c != Char.ofNat 34)

/-- Whether a path holds no space. -/
def spaceFree (p : String) : Bool := p.data.all (fun c => c != Char.ofNat 32)

/-- Whether a path holds no zero character. -/
def zeroFree (p : String) : Bool := p.data.all (fun c => c != Char.ofNat 0)

/-- Whether a token is a quoted include flag: it starts with `-I"`. -/
def isIncludeFlag (t : String) : Bool := t.data.take 3 == "-I\"".data

/-- Whether a token is a quoted source: it starts with a double quote. -/
def isQuotedSource (t : String) : Bool := t.data.take 1 == "\"".data

/-- The six fixed flags of the command. -/
def fixedFlags : List String :=
  ["clang++", "-g", "-O0", "-fvisibility=hidden", "-Xlinker", "-dylib"]

/-! ## Wait status (macros of `<sys/wait.h>`) -/

/-- The macro `_WSTATUS(x)` of `<sys/wait.h>`: `x & 0177`, the low seven bits of the
status word. -/
def _WSTATUS (x : Int) : Int := x % 128

/-- The constant `_WSTOPPED` of `<sys/wait.h>`: `0177`. -/
def _WSTOPPED : Int := 127

/-- The macro `WIFEXITED(x)` of `<sys/wait.h>`: `_WSTATUS(x) == 0`. -/
def WIFEXITED (x : Int) : Bool := _WSTATUS x == 0

/-- The macro `WIFSIGNALED(x)` of `<sys/wait.h>`:
`_WSTATUS(x) != _WSTOPPED && _WSTATUS(x) != 0`. -/
def WIFSIGNALED (x : Int) : Bool := _WSTATUS x != _WSTOPPED && _WSTATUS x != 0

/-! ## `Compiler::GetIsComplete` (lines 71-102) -/

/-- The constant `buffSize` of line 78. -/
def buffSize : Nat := 512

/-- What one call of `GetIsComplete` meets outside the handle. -/
structure PollEnv where
  /-- Content of the 512 bytes of `buffer` when the block is entered (line 79
  declares it without initialising it). -/
  stackBuffer : List Nat
  /-- The bytes that follow `buffer` in memory. -/
  stackAfter : List Nat
  /-- The chunks successive `read` calls deliver.  A `read` that finds the list
  exhausted, or an empty chunk at its head, returns a value that is not positive. -/
  reads : List (List Nat)
  /-- Content of `procStatus` when it is declared (line 87, not initialised). -/
  stackStatus : Int
  /-- The value `waitpid` returns. -/
  waitRet : Int
  /-- The status `waitpid` stores through its second argument, if it stores one. -/
  waitStatus : Option Int
deriving DecidableEq, Repr

/-- The effect of `read( fd, buffer, buffSize )` on `buffer` when the call delivers
`chunk`: at most `buffSize` bytes are stored at the front, the rest is kept. -/
def readInto (buffer chunk : List Nat) : List Nat :=
  chunk.take buffSize ++ buffer.drop (chunk.take buffSize).length

/-- The C string a callee sees when handed a `char*` to `memory`: the bytes before the
first zero byte. -/
def cString (memory : List Nat) : List Nat :=
  memory.takeWhile (fun b => b != 0)

/-- The loop of lines 80-83: while `read` returns a positive count, pass `buffer` to
`LogInfo`. -/
def drain (fd : Int) (stackAfter : List Nat) : List Nat → List (List Nat) → List Effect
  | _, [] => [Effect.read fd []]
  | buffer, chunk :: rest =>
    if (chunk.take buffSize).length > 0 then
      Effect.read fd (chunk.take buffSize)
        :: Effect.logInfo (cString (readInto buffer chunk ++ stackAfter))
        :: drain fd stackAfter (readInto buffer chunk) rest
    else
      [Effect.read fd []]

/-- The function `Compiler::GetIsComplete`: the value returned, the handle afterwards
and the effects performed. -/
def GetIsComplete (env : PollEnv) (d : PlatformCompilerImplData) :
    Bool × PlatformCompilerImplData × List Effect :=
  if !d.m_bCompileIsComplete && d.m_ChildForCompilationPID != 0 then
    let logged : List Effect :=
      if d.m_pLogger then drain d.m_PipeInOut0 env.stackAfter env.stackBuffer env.reads
      else []
    let procStatus : Int :=
      match env.waitStatus with
      | some s => s
      | none => env.stackStatus
    let waited : List Effect := logged ++ [Effect.waitpid d.m_ChildForCompilationPID]
    if WIFEXITED procStatus || WIFSIGNALED procStatus then
      let d1 := { d with m_bCompileIsComplete := true }
      let d2 := { d1 with m_ChildForCompilationPID := 0 }
      let d3 := { d2 with m_PipeInOut0 := 0 }
      let d4 := { d3 with m_PipeInOut1 := 0 }
      (d4.m_bCompileIsComplete, d4,
        waited ++ [Effect.close d2.m_PipeInOut0, Effect.close d3.m_PipeInOut1])
    else
      (d.m_bCompileIsComplete, d, waited)
  else
    (d.m_bCompileIsComplete, d, [])

/-! ## `Compiler::RunCompile` (lines 130-201) -/

/-- The function `Compiler::RunCompile`: the handle afterwards and the effects
performed, given what `pipe` and `fork` answer.  `pipeResult = none` is a
`pipe` that fails (it returns non-zero and stores nothing).  In the branch
where `fork` returns 0 the process is the child; the trace ends at `execl`, which
receives `compileString.c_str()`, while `cout` receives the whole string. -/
def RunCompile (pipeResult : Option (Int × Int)) (forkResult : Int)
    (d : PlatformCompilerImplData)
    (filesToCompile includeDirList libraryDirList : List String)
    (pCompileOptions pLinkOptions : String) (outputFile : String) :
    PlatformCompilerImplData × List Effect :=
  let d1 := { d with m_bCompileIsComplete := false }
  match pipeResult with
  | none =>
    (d1, Effect.pipe none ::
      (if d1.m_pLogger then
        [Effect.logError
          "Error in Compiler::RunCompile, cannot create pipe - perhaps insufficient memory?\n"]
       else []))
  | some (r, w) =>
    let d2 := { d1 with m_PipeInOut0 := r, m_PipeInOut1 := w }
    let retPID := forkResult
    let called : List Effect := [Effect.pipe (some (r, w)), Effect.fork retPID]
    if retPID = -1 then
      (d2, called ++
        (if d2.m_pLogger then
          [Effect.logError
            "Error in Compiler::RunCompile, cannot fork() process - perhaps insufficient memory?\n"]
         else []))
    else if retPID = 0 then
      let d3 := { d2 with m_PipeInOut0 := 0 }
      let cmd := compileString filesToCompile includeDirList libraryDirList outputFile
      (d3, called ++
        [Effect.dup2 d2.m_PipeInOut1 2, Effect.dup2 d2.m_PipeInOut1 1,
         Effect.close d2.m_PipeInOut0, Effect.cout (cmd ++ "\n\n"),
         Effect.execl "/bin/sh" "sh" "-c" (c_str cmd)])
    else
      let d3 := { d2 with m_PipeInOut1 := 0 }
      let d4 := { d3 with m_ChildForCompilationPID := retPID }
      (d4, called ++ [Effect.close d2.m_PipeInOut1])

/-! ## Runs of the orchestrator -/

/-- One call the caller makes on the handle, with what the operating system answers
during it. -/
inductive Call where
  | runCompile (pipeResult : Option (Int × Int)) (forkResult : Int)
      (filesToCompile includeDirList libraryDirList : List String)
      (pCompileOptions pLinkOptions outputFile : String)
  | getIsComplete (env : PollEnv)

/-- Perform one call on the handle and extend the trace. -/
def step (s : PlatformCompilerImplData × List Effect) : Call →
    PlatformCompilerImplData × List Effect
  | Call.runCompile p f files incs libs co lo out =>
    let r := RunCompile p f s.1 files incs libs co lo out
    (r.1, s.2 ++ r.2)
  | Call.getIsComplete env =>
    let r := GetIsComplete env s.1
    (r.2.1, s.2 ++ r.2.2)

/-- The handle and the trace after `Initialise` followed by `calls`. -/
def run (pLogger : Bool) (calls : List Call) : PlatformCompilerImplData × List Effect :=
  calls.foldl step (Initialise pLogger, [])

/-- How one effect changes the list of open descriptors handed out by `pipe`: a
successful `pipe` adds its two descriptors, a `close` removes its argument. -/
def trackFd (held : List Int) : Effect → List Int
  | Effect.pipe (some (r, w)) => held ++ [r, w]
  | Effect.close fd => held.filter (fun x => x != fd)
  | _ => held

/-- The descriptors handed out by `pipe` that the process still holds open after the
effects of `trace`, oldest first. -/
def openPipeFds (trace : List Effect) : List Int :=
  trace.foldl trackFd []

/-- The descriptors closed in `trace` that were, at that moment, not an open descriptor
handed out by `pipe`.  `held` is the list of such open descriptors so far. -/
def strayCloses : List Int → List Effect → List Int
  | _, [] => []
  | held, Effect.close fd :: rest =>
    if fd ∈ held then strayCloses (trackFd held (Effect.close fd)) rest
    else fd :: strayCloses held rest
  | held, e :: rest => strayCloses (trackFd held e) rest

/-- The descriptors that successful `pipe` calls in `trace` handed out, in call
order. -/
def pipeFds : List Effect → List Int
  | [] => []
  | Effect.pipe (some (r, w)) :: rest => r :: w :: pipeFds rest
  | _ :: rest => pipeFds rest

/-- The arguments of the `close` calls in `trace`, in call order. -/
def closedFds : List Effect → List Int
  | [] => []
  | Effect.close fd :: rest => fd :: closedFds rest
  | _ :: rest => closedFds rest

/-- The texts passed to `LogInfo` in `trace`, concatenated in call order. -/
def loggedInfo : List Effect → List Nat
  | [] => []
  | Effect.logInfo text :: rest => text ++ loggedInfo rest
  | _ :: rest => loggedInfo rest

/-- The bytes delivered by `read` in `trace`, concatenated in call order. -/
def bytesRead : List Effect → List Nat
  | [] => []
  | Effect.read _ bytes :: rest => bytes ++ bytesRead rest
  | _ :: rest => bytesRead rest

/-- Whether an effect is a call of `LogError`. -/
def Effect.isLogError : Effect → Bool
  | Effect.logError _ => true
  | _ => false

/-- Whether an effect is a call of `LogInfo`. -/
def Effect.isLogInfo : Effect → Bool
  | Effect.logInfo _ => true
  | _ => false

/-- Whether an effect is a call of `fork`. -/
def Effect.isFork : Effect → Bool
  | Effect.fork _ => true
  | _ => false

/-- Whether an effect writes to `cout` or calls `execl`. -/
def Effect.isCommandUse : Effect → Bool
  | Effect.cout _ => true
  | Effect.execl _ _ _ _ => true
  | _ => false

/-! ## Concrete inputs used below -/

/-- A launch that takes the parent branch: `pipe` hands out descriptors 3 and 4 and
`fork` returns child 42. -/
def launchOk : Call :=
  Call.runCompile (some (3, 4)) 42 ["a.cpp"] ["inc"] [] "" "" "out.so"

/-- A launch in which `pipe` hands out descriptors 3 and 4 and `fork` then fails. -/
def launchForkFails : Call :=
  Call.runCompile (some (3, 4)) (-1) ["a.cpp"] ["inc"] [] "" "" "out.so"

/-- The handle after `Initialise` with a logger and `launchOk`. -/
def runningHandle : PlatformCompilerImplData :=
  { m_intermediatePath := "Runtime"
    m_bCompileIsComplete := false
    m_pLogger := true
    m_ChildForCompilationPID := 42
    m_PipeInOut0 := 3
    m_PipeInOut1 := 0 }

/-- A poll that finds the child gone: `buffer` starts zero-filled, `read` delivers the
six bytes of `hello\n` and then the three bytes of `hi\n`, and `waitpid` returns
42 and stores status 0 (normal exit, code 0). -/
def pollChildExited : PollEnv :=
  { stackBuffer := List.replicate 512 0
    stackAfter := []
    reads := [[104, 101, 108, 108, 111, 10], [104, 105, 10]]
    stackStatus := 0
    waitRet := 42
    waitStatus := some 0 }

/-- A poll that finds the child still running: nothing to read, `waitpid` returns 0 and
stores nothing, and `procStatus` holds the value 0 it happened to start with. -/
def pollChildRunning : PollEnv :=
  { stackBuffer := List.replicate 512 0
    stackAfter := []
    reads := []
    stackStatus := 0
    waitRet := 0
    waitStatus := none }


/-! ## The command string -/

/-- Folding `++` from any start is the start followed by the fold from the empty
string. -/
theorem foldl_append_start (xs : List String) (start : String) :
    xs.foldl (fun r s => r ++ s) start = start ++ String.join xs := by
  induction xs generalizing start with
  | nil => simp [String.join]
  | cons x xs ih =>
    have h1 := ih (start ++ x)
    have h2 := ih ("" ++ x)
    simp only [String.join, List.foldl_cons] at h1 h2 ⊢
    rw [h1, h2, String.empty_append, String.append_assoc]

/-- A loop that appends `f d` for each `d` appends the concatenation of the `f d`. -/
theorem foldl_append_map (f : String → String) (xs : List String) (start : String) :
    xs.foldl (fun s d => s ++ f d) start = start ++ String.join (xs.map f) := by
  rw [← foldl_append_start, List.foldl_map]

/-- The string built by lines 175-196 is the one the specification describes. -/
theorem compileString_eq_specCommand (S I L : List String) (o : String) :
    compileString S I L o = specCommand S I L o := by
  unfold compileString specCommand appendIncludeDirs appendLibraryDirs appendFilesToCompile
  simp only [foldl_append_map, String.append_assoc]

/-- Inside double quotes, characters other than the quote all join the current token. -/
theorem scan_quoted (done : List (List Char)) (cs word : List Char)
    (h : ∀ c ∈ cs, c ≠ Char.ofNat 34) :
    cs.foldl splitStep { done := done, word := word, quoted := true }
      = { done := done, word := word ++ cs, quoted := true } := by
  induction cs generalizing word with
  | nil => simp
  | cons c cs ih =>
    have hc : c ≠ Char.ofNat 34 := h c (by simp)
    have hrest : ∀ x ∈ cs, x ≠ Char.ofNat 34 := fun x hx => h x (by simp [hx])
    rw [List.foldl_cons]
    have hstep : splitStep { done := done, word := word, quoted := true } c
        = { done := done, word := word ++ [c], quoted := true } := by
      simp [splitStep, hc]
    rw [hstep, ih _ hrest]
    simp

/-- Outside double quotes, characters other than quote and space all join the current
token. -/
theorem scan_bare (done : List (List Char)) (cs word : List Char)
    (hq : ∀ c ∈ cs, c ≠ Char.ofNat 34) (hs : ∀ c ∈ cs, c ≠ Char.ofNat 32) :
    cs.foldl splitStep { done := done, word := word, quoted := false }
      = { done := done, word := word ++ cs, quoted := false } := by
  induction cs generalizing word with
  | nil => simp
  | cons c cs ih =>
    have hc : c ≠ Char.ofNat 34 := hq c (by simp)
    have hc2 : c ≠ Char.ofNat 32 := hs c (by simp)
    rw [List.foldl_cons]
    have hstep : splitStep { done := done, word := word, quoted := false } c
        = { done := done, word := word ++ [c], quoted := false } := by
      simp [splitStep, hc, hc2]
    rw [hstep, ih _ (fun x hx => hq x (by simp [hx])) (fun x hx => hs x (by simp [hx]))]
    simp

/-- Scanning `opener"d" ` from a token boundary yields the one token `opener"d"`,
when `d` holds no double quote. -/
theorem scan_flag (done : List (List Char)) (opener d : List Char)
    (hoq : ∀ c ∈ opener, c ≠ Char.ofNat 34) (hos : ∀ c ∈ opener, c ≠ Char.ofNat 32)
    (hd : ∀ c ∈ d, c ≠ Char.ofNat 34) :
    (opener ++ [Char.ofNat 34] ++ d ++ [Char.ofNat 34, Char.ofNat 32]).foldl splitStep
        { done := done, word := [], quoted := false }
      = { done := done ++ [opener ++ [Char.ofNat 34] ++ d ++ [Char.ofNat 34]],
          word := [], quoted := false } := by
  rw [List.foldl_append, List.foldl_append, List.foldl_append, scan_bare done opener [] hoq hos]
  have h1 : [Char.ofNat 34].foldl splitStep
      { done := done, word := [] ++ opener, quoted := false }
      = { done := done, word := opener ++ [Char.ofNat 34], quoted := true } := by
    simp [splitStep]
  rw [h1, scan_quoted done d _ hd]
  simp [splitStep]

/-- Scanning a run of pieces `opener"d" ` yields one token per piece, in order. -/
theorem scan_flags (opener : List Char) (ds : List (List Char)) (done : List (List Char))
    (hoq : ∀ c ∈ opener, c ≠ Char.ofNat 34) (hos : ∀ c ∈ opener, c ≠ Char.ofNat 32)
    (hd : ∀ d ∈ ds, ∀ c ∈ d, c ≠ Char.ofNat 34) :
    (ds.map (fun d => opener ++ [Char.ofNat 34] ++ d ++ [Char.ofNat 34, Char.ofNat 32])).flatten.foldl
        splitStep { done := done, word := [], quoted := false }
      = { done := done ++ ds.map (fun d => opener ++ [Char.ofNat 34] ++ d ++ [Char.ofNat 34]),
          word := [], quoted := false } := by
  induction ds generalizing done with
  | nil => simp
  | cons d ds ih =>
    rw [List.map_cons, List.flatten_cons, List.foldl_append,
      scan_flag done opener d hoq hos (hd d (by simp)),
      ih _ (fun x hx => hd x (by simp [hx]))]
    simp

/-- Scanning `-o o ` from a token boundary yields the tokens `-o` and `o`, when `o`
holds neither double quote nor space. -/
theorem scan_output (done : List (List Char)) (o : List Char)
    (hq : ∀ c ∈ o, c ≠ Char.ofNat 34) (hs : ∀ c ∈ o, c ≠ Char.ofNat 32) :
    ("-o ".data ++ o ++ [Char.ofNat 32]).foldl splitStep
        { done := done, word := [], quoted := false }
      = { done := done ++ ["-o".data, o], word := [], quoted := false } := by
  rw [List.foldl_append, List.foldl_append]
  have h1 : "-o ".data.foldl splitStep { done := done, word := [], quoted := false }
      = { done := done ++ ["-o".data], word := [], quoted := false } := by
    simp [splitStep]
  rw [h1, scan_bare _ o [] hq hs]
  simp [splitStep]

/-- The characters of a run of pieces `lit d" `, where `lit` is `opener` followed by a
double quote. -/
theorem flags_data (lit : String) (opener : List Char)
    (hlit : lit.data = opener ++ [Char.ofNat 34]) (ds : List String) :
    (String.join (ds.map (fun d => lit ++ d ++ "\" "))).data
      = ((ds.map String.data).map
          (fun cs => opener ++ [Char.ofNat 34] ++ cs ++ [Char.ofNat 34, Char.ofNat 32])).flatten := by
  have hclose : "\" ".data = [Char.ofNat 34, Char.ofNat 32] := by decide
  simp only [String.data_join, List.map_map]
  congr 1
  apply List.map_congr_left
  intro d _
  simp [String.data_append, hlit, hclose]

/-- The tokens `lit d"` as strings, from their characters. -/
theorem flags_tokens (lit : String) (opener : List Char)
    (hlit : lit.data = opener ++ [Char.ofNat 34]) (ds : List String) :
    ((ds.map String.data).map
        (fun cs => opener ++ [Char.ofNat 34] ++ cs ++ [Char.ofNat 34])).map String.mk
      = ds.map (fun d => lit ++ d ++ "\"") := by
  have hclose : "\"".data = [Char.ofNat 34] := by decide
  simp only [List.map_map]
  apply List.map_congr_left
  intro d _
  apply String.ext
  simp [String.data_append, hlit, hclose]

/-- A list of paths that pass `quoteFree` holds no double quote anywhere. -/
theorem quoteFree_data (ds : List String) (h : ds.all quoteFree = true) :
    ∀ d ∈ ds.map String.data, ∀ c ∈ d, c ≠ Char.ofNat 34 := by
  intro d hd c hc
  rw [List.mem_map] at hd
  obtain ⟨p, hp, rfl⟩ := hd
  have h1 := (List.all_eq_true.mp h) p hp
  have h2 := (List.all_eq_true.mp h1) c hc
  simpa using h2

/-- The characters of the built command, piece by piece. -/
theorem compileString_data (S I L : List String) (o : String) :
    (compileString S I L o).data
      = "clang++ -g -O0 -fvisibility=hidden -Xlinker -dylib ".data
        ++ (((I.map String.data).map (fun cs =>
              "-I".data ++ [Char.ofNat 34] ++ cs ++ [Char.ofNat 34, Char.ofNat 32])).flatten
        ++ (((L.map String.data).map (fun cs =>
              "-L".data ++ [Char.ofNat 34] ++ cs ++ [Char.ofNat 34, Char.ofNat 32])).flatten
        ++ (("-o ".data ++ o.data ++ [Char.ofNat 32])
        ++ ((S.map String.data).map (fun cs =>
              [] ++ [Char.ofNat 34] ++ cs ++ [Char.ofNat 34, Char.ofNat 32])).flatten))) := by
  have hlitI : "-I\"".data = "-I".data ++ [Char.ofNat 34] := by decide
  have hlitL : "-L\"".data = "-L".data ++ [Char.ofNat 34] := by decide
  have hlitS : "\"".data = [] ++ [Char.ofNat 34] := by decide
  have hsp : " ".data = [Char.ofNat 32] := by decide
  rw [compileString_eq_specCommand]
  unfold specCommand
  simp only [String.data_append, flags_data _ _ hlitI, flags_data _ _ hlitL,
    flags_data _ _ hlitS, hsp, List.append_assoc]

/-- Scanning the fixed flags yields six tokens and ends at a token boundary. -/
theorem scan_fixedFlags :
    "clang++ -g -O0 -fvisibility=hidden -Xlinker -dylib ".data.foldl splitStep
        { done := [], word := [], quoted := false }
      = { done := fixedFlags.map String.data, word := [], quoted := false } := by
  decide

/-- The tokens of the built command, when no path holds a double quote and the output
path holds no space: the fixed flags, one `-I"d"` per include directory, one
`-L"d"` per library directory, `-o`, the output path, one `"s"` per source. -/
theorem specTokens_compileString (S I L : List String) (o : String)
    (hI : I.all quoteFree = true) (hL : L.all quoteFree = true)
    (hS : S.all quoteFree = true) (hoq : quoteFree o = true) (hos : spaceFree o = true) :
    specTokens (compileString S I L o)
      = fixedFlags ++ I.map (fun d => "-I\"" ++ d ++ "\"")
          ++ L.map (fun d => "-L\"" ++ d ++ "\"") ++ ["-o", o]
          ++ S.map (fun s => "\"" ++ s ++ "\"") := by
  have hlitI : "-I\"".data = "-I".data ++ [Char.ofNat 34] := by decide
  have hlitL : "-L\"".data = "-L".data ++ [Char.ofNat 34] := by decide
  have hlitS : "\"".data = [] ++ [Char.ofNat 34] := by decide
  have hoq2 : ∀ c ∈ o.data, c ≠ Char.ofNat 34 := by
    intro c hc
    simpa using (List.all_eq_true.mp hoq) c hc
  have hos2 : ∀ c ∈ o.data, c ≠ Char.ofNat 32 := by
    intro c hc
    simpa using (List.all_eq_true.mp hos) c hc
  have hscan : (compileString S I L o).data.foldl splitStep
      { done := [], word := [], quoted := false }
      = { done := fixedFlags.map String.data
            ++ (I.map String.data).map (fun cs =>
                "-I".data ++ [Char.ofNat 34] ++ cs ++ [Char.ofNat 34])
            ++ (L.map String.data).map (fun cs =>
                "-L".data ++ [Char.ofNat 34] ++ cs ++ [Char.ofNat 34])
            ++ ["-o".data, o.data]
            ++ (S.map String.data).map (fun cs =>
                [] ++ [Char.ofNat 34] ++ cs ++ [Char.ofNat 34]),
          word := [], quoted := false } := by
    rw [compileString_data, List.foldl_append, scan_fixedFlags, List.foldl_append,
      scan_flags "-I".data _ _ (by decide) (by decide) (quoteFree_data I hI),
      List.foldl_append,
      scan_flags "-L".data _ _ (by decide) (by decide) (quoteFree_data L hL),
      List.foldl_append, scan_output _ _ hoq2 hos2,
      scan_flags [] _ _ (by simp) (by simp) (quoteFree_data S hS)]
  unfold specTokens
  simp only [hscan, if_true, List.append_nil, List.map_append,
    flags_tokens _ _ hlitI, flags_tokens _ _ hlitL, flags_tokens _ _ hlitS]
  simp [fixedFlags]

/-- Outside double quotes, a run of characters without double quote ends outside double
quotes, and every token it finishes or leaves open is without double quote. -/
theorem scan_plain (cs : List Char) (done : List (List Char)) (word : List Char)
    (hcs : ∀ c ∈ cs, c ≠ Char.ofNat 34) (hword : ∀ c ∈ word, c ≠ Char.ofNat 34) :
    ∃ (ws : List (List Char)) (rest : List Char),
      cs.foldl splitStep { done := done, word := word, quoted := false }
          = { done := done ++ ws, word := rest, quoted := false }
        ∧ (∀ t ∈ ws, ∀ c ∈ t, c ≠ Char.ofNat 34)
        ∧ (∀ c ∈ rest, c ≠ Char.ofNat 34) := by
  induction cs generalizing done word with
  | nil => exact ⟨[], word, by simp, by simp, hword⟩
  | cons c cs ih =>
    have hc : c ≠ Char.ofNat 34 := hcs c (by simp)
    have hrest : ∀ x ∈ cs, x ≠ Char.ofNat 34 := fun x hx => hcs x (by simp [hx])
    by_cases hsp : c = Char.ofNat 32
    · have hstep : splitStep { done := done, word := word, quoted := false } c
          = { done := done ++ [word], word := [], quoted := false } := by
        simp [splitStep, hc, hsp]
      obtain ⟨ws, rest, h1, h2, h3⟩ := ih (done ++ [word]) [] hrest (by simp)
      refine ⟨word :: ws, rest, ?_, ?_, h3⟩
      · rw [List.foldl_cons, hstep, h1]
        simp
      · intro t ht
        rcases List.mem_cons.mp ht with rfl | ht
        · exact hword
        · exact h2 t ht
    · have hstep : splitStep { done := done, word := word, quoted := false } c
          = { done := done, word := word ++ [c], quoted := false } := by
        simp [splitStep, hc, hsp]
      have hword2 : ∀ x ∈ word ++ [c], x ≠ Char.ofNat 34 := by
        intro x hx
        rcases List.mem_append.mp hx with hx | hx
        · exact hword x hx
        · rw [List.mem_singleton.mp hx]
          exact hc
      obtain ⟨ws, rest, h1, h2, h3⟩ := ih done (word ++ [c]) hrest hword2
      exact ⟨ws, rest, by rw [List.foldl_cons, hstep, h1], h2, h3⟩

/-- Scanning `-o o ` from a token boundary, when `o` holds no double quote, ends at a
token boundary and yields only tokens without double quote. -/
theorem scan_output_plain (done : List (List Char)) (o : List Char)
    (hq : ∀ c ∈ o, c ≠ Char.ofNat 34) :
    ∃ ws : List (List Char),
      ("-o ".data ++ o ++ [Char.ofNat 32]).foldl splitStep
          { done := done, word := [], quoted := false }
          = { done := done ++ ws, word := [], quoted := false }
        ∧ (∀ t ∈ ws, ∀ c ∈ t, c ≠ Char.ofNat 34) := by
  have hall : ∀ c ∈ "-o ".data ++ o, c ≠ Char.ofNat 34 := by
    intro c hc
    rcases List.mem_append.mp hc with hc | hc
    · have hflag : ∀ x ∈ "-o ".data, x ≠ Char.ofNat 34 := by decide
      exact hflag c hc
    · exact hq c hc
  obtain ⟨ws, rest, h1, h2, h3⟩ := scan_plain ("-o ".data ++ o) done [] hall (by simp)
  refine ⟨ws ++ [rest], ?_, ?_⟩
  · rw [List.foldl_append, h1]
    simp [splitStep]
  · intro t ht
    rcases List.mem_append.mp ht with ht | ht
    · exact h2 t ht
    · rw [List.mem_singleton.mp ht]
      exact h3

/-- The tokens of the built command when no path holds a double quote: the fixed flags,
one `-I"d"` per include directory, one `-L"d"` per library directory, then the
tokens of the output flag, none of which holds a double quote, then one `"s"`
per source. -/
theorem specTokens_compileString_plain (S I L : List String) (o : String)
    (hI : I.all quoteFree = true) (hL : L.all quoteFree = true)
    (hS : S.all quoteFree = true) (hoq : quoteFree o = true) :
    ∃ ws : List (List Char),
      (∀ t ∈ ws, ∀ c ∈ t, c ≠ Char.ofNat 34)
        ∧ specTokens (compileString S I L o)
          = fixedFlags ++ I.map (fun d => "-I\"" ++ d ++ "\"")
              ++ L.map (fun d => "-L\"" ++ d ++ "\"") ++ ws.map String.mk
              ++ S.map (fun s => "\"" ++ s ++ "\"") := by
  have hlitI : "-I\"".data = "-I".data ++ [Char.ofNat 34] := by decide
  have hlitL : "-L\"".data = "-L".data ++ [Char.ofNat 34] := by decide
  have hlitS : "\"".data = [] ++ [Char.ofNat 34] := by decide
  have hoq2 : ∀ c ∈ o.data, c ≠ Char.ofNat 34 := by
    intro c hc
    simpa using (List.all_eq_true.mp hoq) c hc
  obtain ⟨ws, hws, hquote⟩ := scan_output_plain
    (fixedFlags.map String.data
      ++ (I.map String.data).map (fun cs =>
          "-I".data ++ [Char.ofNat 34] ++ cs ++ [Char.ofNat 34])
      ++ (L.map String.data).map (fun cs =>
          "-L".data ++ [Char.ofNat 34] ++ cs ++ [Char.ofNat 34])) o.data hoq2
  refine ⟨ws, hquote, ?_⟩
  have hscan : (compileString S I L o).data.foldl splitStep
      { done := [], word := [], quoted := false }
      = { done := fixedFlags.map String.data
            ++ (I.map String.data).map (fun cs =>
                "-I".data ++ [Char.ofNat 34] ++ cs ++ [Char.ofNat 34])
            ++ (L.map String.data).map (fun cs =>
                "-L".data ++ [Char.ofNat 34] ++ cs ++ [Char.ofNat 34])
            ++ ws
            ++ (S.map String.data).map (fun cs =>
                [] ++ [Char.ofNat 34] ++ cs ++ [Char.ofNat 34]),
          word := [], quoted := false } := by
    rw [compileString_data, List.foldl_append, scan_fixedFlags, List.foldl_append,
      scan_flags "-I".data _ _ (by decide) (by decide) (quoteFree_data I hI),
      List.foldl_append,
      scan_flags "-L".data _ _ (by decide) (by decide) (quoteFree_data L hL),
      List.foldl_append, hws,
      scan_flags [] _ _ (by simp) (by simp) (quoteFree_data S hS)]
  unfold specTokens
  simp only [hscan, if_true, List.append_nil, List.map_append,
    flags_tokens _ _ hlitI, flags_tokens _ _ hlitL, flags_tokens _ _ hlitS]
  simp [fixedFlags]

/-- A string without zero character is its own C string. -/
theorem c_str_of_zeroFree (s : String) (h : zeroFree s = true) : c_str s = s := by
  apply String.ext
  unfold c_str
  exact List.takeWhile_eq_self_iff.mpr (List.all_eq_true.mp h)

/-- The concatenation of two strings is free of zero characters when both are. -/
theorem zeroFree_append (a b : String) :
    zeroFree (a ++ b) = (zeroFree a && zeroFree b) := by
  simp [zeroFree, String.data_append, List.all_append]

/-- The concatenation of a list of strings is free of zero characters when each is. -/
theorem zeroFree_join (xs : List String) (h : xs.all zeroFree = true) :
    zeroFree (String.join xs) = true := by
  simp only [zeroFree, String.data_join, List.all_eq_true, List.mem_flatten, List.mem_map]
  rintro c ⟨cs, ⟨x, hx, rfl⟩, hc⟩
  exact (List.all_eq_true.mp ((List.all_eq_true.mp h) x hx)) c hc

/-- The built command holds no zero character when no path does. -/
theorem zeroFree_compileString (S I L : List String) (o : String)
    (hS : S.all zeroFree = true) (hI : I.all zeroFree = true)
    (hL : L.all zeroFree = true) (ho : zeroFree o = true) :
    zeroFree (compileString S I L o) = true := by
  have hwrap : ∀ (lit : String) (ds : List String), zeroFree lit = true →
      ds.all zeroFree = true →
      zeroFree (String.join (ds.map (fun d => lit ++ d ++ "\" "))) = true := by
    intro lit ds hlit hds
    apply zeroFree_join
    rw [List.all_eq_true]
    intro x hx
    rw [List.mem_map] at hx
    obtain ⟨d, hd, rfl⟩ := hx
    have h1 := (List.all_eq_true.mp hds) d hd
    have h2 : zeroFree "\" " = true := by decide
    simp [zeroFree_append, hlit, h1, h2]
  rw [compileString_eq_specCommand]
  unfold specCommand
  have h0 : zeroFree "clang++ -g -O0 -fvisibility=hidden -Xlinker -dylib " = true := by
    decide
  have h1 : zeroFree "-o " = true := by decide
  have h2 : zeroFree " " = true := by decide
  simp [zeroFree_append, h0, h1, h2, ho, hwrap "-I\"" I (by decide) hI,
    hwrap "-L\"" L (by decide) hL, hwrap "\"" S (by decide) hS]

/-- A token without double quote is neither an include flag nor a quoted source. -/
theorem plain_token_kind (t : List Char) (h : ∀ c ∈ t, c ≠ Char.ofNat 34) :
    isIncludeFlag (String.mk t) = false ∧ isQuotedSource (String.mk t) = false := by
  constructor
  · cases hflag : isIncludeFlag (String.mk t) with
    | false => rfl
    | true =>
      exfalso
      have h3 : t.take 3 = "-I\"".data := by simpa [isIncludeFlag] using hflag
      have hmem : Char.ofNat 34 ∈ t.take 3 := by
        rw [h3]
        decide
      exact h _ (List.mem_of_mem_take hmem) rfl
  · cases hflag : isQuotedSource (String.mk t) with
    | false => rfl
    | true =>
      exfalso
      have h1 : t.take 1 = "\"".data := by simpa [isQuotedSource] using hflag
      have hmem : Char.ofNat 34 ∈ t.take 1 := by
        rw [h1]
        decide
      exact h _ (List.mem_of_mem_take hmem) rfl

/-- Among the tokens of the built command, those that start with `-I"` are the include
flags and those that start with a double quote are the sources, when no path
holds a double quote. -/
theorem filter_specTokens (S I L : List String) (o : String)
    (hI : I.all quoteFree = true) (hL : L.all quoteFree = true)
    (hS : S.all quoteFree = true) (hoq : quoteFree o = true) :
    (specTokens (compileString S I L o)).filter isIncludeFlag
        = I.map (fun d => "-I\"" ++ d ++ "\"")
      ∧ (specTokens (compileString S I L o)).filter isQuotedSource
        = S.map (fun s => "\"" ++ s ++ "\"") := by
  have hinc : ∀ d : String, isIncludeFlag ("-I\"" ++ d ++ "\"") = true
      ∧ isQuotedSource ("-I\"" ++ d ++ "\"") = false := by
    intro d
    have hd : ("-I\"" ++ d ++ "\"").data
        = '-' :: 'I' :: Char.ofNat 34 :: (d.data ++ "\"".data) := rfl
    have h3 : List.take 3 ('-' :: 'I' :: Char.ofNat 34 :: (d.data ++ "\"".data))
        = ['-', 'I', Char.ofNat 34] := rfl
    have h1 : List.take 1 ('-' :: 'I' :: Char.ofNat 34 :: (d.data ++ "\"".data))
        = ['-'] := rfl
    constructor
    · simp only [isIncludeFlag, hd, h3]
      decide
    · simp only [isQuotedSource, hd, h1]
      decide
  have hlib : ∀ d : String, isIncludeFlag ("-L\"" ++ d ++ "\"") = false
      ∧ isQuotedSource ("-L\"" ++ d ++ "\"") = false := by
    intro d
    have hd : ("-L\"" ++ d ++ "\"").data
        = '-' :: 'L' :: Char.ofNat 34 :: (d.data ++ "\"".data) := rfl
    have h3 : List.take 3 ('-' :: 'L' :: Char.ofNat 34 :: (d.data ++ "\"".data))
        = ['-', 'L', Char.ofNat 34] := rfl
    have h1 : List.take 1 ('-' :: 'L' :: Char.ofNat 34 :: (d.data ++ "\"".data))
        = ['-'] := rfl
    constructor
    · simp only [isIncludeFlag, hd, h3]
      decide
    · simp only [isQuotedSource, hd, h1]
      decide
  have hsrc : ∀ d : String, isIncludeFlag ("\"" ++ d ++ "\"") = false
      ∧ isQuotedSource ("\"" ++ d ++ "\"") = true := by
    intro d
    have hd : ("\"" ++ d ++ "\"").data = Char.ofNat 34 :: (d.data ++ "\"".data) := rfl
    have h3 : List.take 3 (Char.ofNat 34 :: (d.data ++ "\"".data))
        = Char.ofNat 34 :: List.take 2 (d.data ++ "\"".data) := rfl
    have h1 : List.take 1 (Char.ofNat 34 :: (d.data ++ "\"".data))
        = [Char.ofNat 34] := rfl
    constructor
    · simp only [isIncludeFlag, hd, h3]
      rw [Bool.eq_false_iff]
      intro h
      have heq := eq_of_beq h
      injection heq with hhead _
      exact absurd hhead (by decide)
    · simp only [isQuotedSource, hd, h1]
      decide
  obtain ⟨ws, hws, htok⟩ := specTokens_compileString_plain S I L o hI hL hS hoq
  rw [htok]
  constructor
  · simp only [List.filter_append]
    have h1 : fixedFlags.filter isIncludeFlag = [] := by decide
    have h2 : (I.map (fun d => "-I\"" ++ d ++ "\"")).filter isIncludeFlag
        = I.map (fun d => "-I\"" ++ d ++ "\"") := by
      rw [List.filter_eq_self]
      intro t ht
      rw [List.mem_map] at ht
      obtain ⟨d, _, rfl⟩ := ht
      exact (hinc d).1
    have h3 : (L.map (fun d => "-L\"" ++ d ++ "\"")).filter isIncludeFlag = [] := by
      rw [List.filter_eq_nil_iff]
      intro t ht
      rw [List.mem_map] at ht
      obtain ⟨d, _, rfl⟩ := ht
      simp [(hlib d).1]
    have h4 : (ws.map String.mk).filter isIncludeFlag = [] := by
      rw [List.filter_eq_nil_iff]
      intro t ht
      rw [List.mem_map] at ht
      obtain ⟨cs, hcs, rfl⟩ := ht
      simp [(plain_token_kind cs (hws cs hcs)).1]
    have h6 : (S.map (fun s => "\"" ++ s ++ "\"")).filter isIncludeFlag = [] := by
      rw [List.filter_eq_nil_iff]
      intro t ht
      rw [List.mem_map] at ht
      obtain ⟨d, _, rfl⟩ := ht
      simp [(hsrc d).1]
    rw [h1, h2, h3, h4, h6]
    simp
  · simp only [List.filter_append]
    have h1 : fixedFlags.filter isQuotedSource = [] := by decide
    have h2 : (I.map (fun d => "-I\"" ++ d ++ "\"")).filter isQuotedSource = [] := by
      rw [List.filter_eq_nil_iff]
      intro t ht
      rw [List.mem_map] at ht
      obtain ⟨d, _, rfl⟩ := ht
      simp [(hinc d).2]
    have h3 : (L.map (fun d => "-L\"" ++ d ++ "\"")).filter isQuotedSource = [] := by
      rw [List.filter_eq_nil_iff]
      intro t ht
      rw [List.mem_map] at ht
      obtain ⟨d, _, rfl⟩ := ht
      simp [(hlib d).2]
    have h4 : (ws.map String.mk).filter isQuotedSource = [] := by
      rw [List.filter_eq_nil_iff]
      intro t ht
      rw [List.mem_map] at ht
      obtain ⟨cs, hcs, rfl⟩ := ht
      simp [(plain_token_kind cs (hws cs hcs)).2]
    have h6 : (S.map (fun s => "\"" ++ s ++ "\"")).filter isQuotedSource
        = S.map (fun s => "\"" ++ s ++ "\"") := by
      rw [List.filter_eq_self]
      intro t ht
      rw [List.mem_map] at ht
      obtain ⟨d, _, rfl⟩ := ht
      exact (hsrc d).2
    rw [h1, h2, h3, h4, h6]
    simp

/-- Claim C1, as amended. For every request the string `RunCompile` builds is the fixed
flags, then `-I"d" ` for each include directory in order, then `-L"d" ` for each
library directory in order, then `-o `, the output path and a space, then
`"s" ` for each source in order, every path verbatim.  The child writes that
string whole to `cout` and hands `execl` its C string, which is the whole
string when no path holds a zero character.  When no path holds a double
quote, the tokens of the command that start with `-I"` are exactly the
`-I"d"` of the include directories, in input order, and its tokens that start
with a double quote are exactly the `"s"` of the sources, in input order, and
they are its last tokens: as many include flags as include directories, as many
trailing quoted sources as sources.
When moreover the output path holds no space, the tokens are exactly the six
fixed flags, the `-I"d"`, the `-L"d"`, `-o`, the output path and the `"s"`.
For sources `a.cpp`, include `inc`, no libraries and output `out.so` the
command is
`clang++ -g -O0 -fvisibility=hidden -Xlinker -dylib -I"inc" -o out.so "a.cpp" `. -/
theorem C1_command_string (S I L : List String) (co lo o : String)
    (r w : Int) (d : PlatformCompilerImplData) :
    compileString S I L o
        = "clang++ -g -O0 -fvisibility=hidden -Xlinker -dylib "
            ++ String.join (I.map (fun d => "-I\"" ++ d ++ "\" "))
            ++ String.join (L.map (fun d => "-L\"" ++ d ++ "\" "))
            ++ "-o " ++ o ++ " "
            ++ String.join (S.map (fun s => "\"" ++ s ++ "\" "))
      ∧ (RunCompile (some (r, w)) 0 d S I L co lo o).2
        = [Effect.pipe (some (r, w)), Effect.fork 0, Effect.dup2 w 2, Effect.dup2 w 1,
           Effect.close r, Effect.cout (compileString S I L o ++ "\n\n"),
           Effect.execl "/bin/sh" "sh" "-c" (c_str (compileString S I L o))]
      ∧ (S.all zeroFree = true → I.all zeroFree = true → L.all zeroFree = true →
          zeroFree o = true →
          c_str (compileString S I L o) = compileString S I L o)
      ∧ (I.all quoteFree = true → L.all quoteFree = true → S.all quoteFree = true →
          quoteFree o = true →
          (specTokens (compileString S I L o)).filter isIncludeFlag
              = I.map (fun d => "-I\"" ++ d ++ "\"")
            ∧ ((specTokens (compileString S I L o)).filter isIncludeFlag).length = I.length
            ∧ (specTokens (compileString S I L o)).filter isQuotedSource
              = S.map (fun s => "\"" ++ s ++ "\"")
            ∧ ((specTokens (compileString S I L o)).filter isQuotedSource).length = S.length
            ∧ (∃ front : List String,
                specTokens (compileString S I L o)
                    = front ++ S.map (fun s => "\"" ++ s ++ "\"")
                  ∧ front.filter isQuotedSource = []))
      ∧ (I.all quoteFree = true → L.all quoteFree = true → S.all quoteFree = true →
          quoteFree o = true → spaceFree o = true →
          specTokens (compileString S I L o)
            = fixedFlags ++ I.map (fun d => "-I\"" ++ d ++ "\"")
                ++ L.map (fun d => "-L\"" ++ d ++ "\"") ++ ["-o", o]
                ++ S.map (fun s => "\"" ++ s ++ "\""))
      ∧ compileString ["a.cpp"] ["inc"] [] "out.so"
        = "clang++ -g -O0 -fvisibility=hidden -Xlinker -dylib "
            ++ "-I\"inc\" " ++ "-o out.so " ++ "\"a.cpp\" " := by
  refine ⟨compileString_eq_specCommand S I L o, ?_, ?_, ?_, ?_, by decide⟩
  · simp [RunCompile]
  · intro hS hI hL ho
    exact c_str_of_zeroFree _ (zeroFree_compileString S I L o hS hI hL ho)
  · intro hI hL hS hoq
    have hf := filter_specTokens S I L o hI hL hS hoq
    refine ⟨hf.1, ?_, hf.2, ?_, ?_⟩
    · rw [hf.1, List.length_map]
    · rw [hf.2, List.length_map]
    · obtain ⟨ws, _, htok⟩ := specTokens_compileString_plain S I L o hI hL hS hoq
      refine ⟨_, htok, ?_⟩
      have hall : (fixedFlags ++ I.map (fun d => "-I\"" ++ d ++ "\"")
          ++ L.map (fun d => "-L\"" ++ d ++ "\"") ++ ws.map String.mk
          ++ S.map (fun s => "\"" ++ s ++ "\"")).filter isQuotedSource
          = S.map (fun s => "\"" ++ s ++ "\"") := by
        rw [← htok]
        exact hf.2
      have hS2 : (S.map (fun s => "\"" ++ s ++ "\"")).filter isQuotedSource
          = S.map (fun s => "\"" ++ s ++ "\"") := by
        rw [List.filter_eq_self]
        intro t ht
        have hmem : t ∈ (specTokens (compileString S I L o)).filter isQuotedSource := by
          rw [hf.2]
          exact ht
        exact (List.mem_filter.mp hmem).2
      rw [List.filter_append, hS2] at hall
      exact List.append_left_eq_self.mp hall
  · intro hI hL hS hoq hos
    exact specTokens_compileString S I L o hI hL hS hoq hos

/-- The amended claim at sources `a.cpp`, include directory `my inc` (with a space),
library directory `lib` and output `out.so`. -/
theorem C1_command_string_witness :
    ["my inc"].all quoteFree = true ∧ ["lib"].all quoteFree = true
      ∧ ["a.cpp"].all quoteFree = true ∧ quoteFree "out.so" = true
      ∧ spaceFree "out.so" = true
      ∧ ["a.cpp"].all zeroFree = true ∧ ["my inc"].all zeroFree = true
      ∧ ["lib"].all zeroFree = true ∧ zeroFree "out.so" = true
      ∧ specTokens (compileString ["a.cpp"] ["my inc"] ["lib"] "out.so")
        = ["clang++", "-g", "-O0", "-fvisibility=hidden", "-Xlinker", "-dylib",
           "-I\"my inc\"", "-L\"lib\"", "-o", "out.so", "\"a.cpp\""]
      ∧ ((specTokens (compileString ["a.cpp"] ["my inc"] ["lib"] "out.so")).filter
          isIncludeFlag).length = 1
      ∧ ((specTokens (compileString ["a.cpp"] ["my inc"] ["lib"] "out.so")).filter
          isQuotedSource).length = 1
      ∧ c_str (compileString ["a.cpp"] ["my inc"] ["lib"] "out.so")
        = compileString ["a.cpp"] ["my inc"] ["lib"] "out.so" :=
  ⟨by decide, by decide, by decide, by decide, by decide,
   by decide, by decide, by decide, by decide,
   (C1_command_string ["a.cpp"] ["my inc"] ["lib"] "" "" "out.so" 3 4
      (Initialise true)).2.2.2.2.1
      (by decide) (by decide) (by decide) (by decide) (by decide),
   ((C1_command_string ["a.cpp"] ["my inc"] ["lib"] "" "" "out.so" 3 4
      (Initialise true)).2.2.2.1
      (by decide) (by decide) (by decide) (by decide)).2.1,
   ((C1_command_string ["a.cpp"] ["my inc"] ["lib"] "" "" "out.so" 3 4
      (Initialise true)).2.2.2.1
      (by decide) (by decide) (by decide) (by decide)).2.2.2.1,
   (C1_command_string ["a.cpp"] ["my inc"] ["lib"] "" "" "out.so" 3 4
      (Initialise true)).2.2.1
      (by decide) (by decide) (by decide) (by decide)⟩

/-- Claim C1 as first stated, refuted. An include directory that holds a double quote,
`a" -I"b`, builds the very command that the two directories `a` and `b` build:
the command holds two include flags for one include directory.  An output path
`out.so "z.cpp"` builds the command of the source `z.cpp` with output `out.so`:
one trailing quoted source for no source.  And for the source path `a`, zero
character, `b.cpp`, what `execl` receives stops after `"a`, short of the
string built. -/
theorem C1_count_counterexample :
    compileString [] ["a\" -I\"b"] [] "o" = compileString [] ["a", "b"] [] "o"
      ∧ (specTokens (compileString [] ["a\" -I\"b"] [] "o")).filter isIncludeFlag
        = ["-I\"a\"", "-I\"b\""]
      ∧ ((specTokens (compileString [] ["a\" -I\"b"] [] "o")).filter isIncludeFlag).length
        ≠ ["a\" -I\"b"].length
      ∧ compileString [] [] [] "out.so \"z.cpp\"" = compileString ["z.cpp"] [] [] "out.so"
      ∧ ((specTokens (compileString [] [] [] "out.so \"z.cpp\"")).filter
          isQuotedSource).length ≠ ([] : List String).length
      ∧ (RunCompile (some (3, 4)) 0 (Initialise true) ["a\x00b.cpp"] [] [] "" ""
          "out.so").2.getLast?
        = some (Effect.execl "/bin/sh" "sh" "-c"
            "clang++ -g -O0 -fvisibility=hidden -Xlinker -dylib -o out.so \"a")
      ∧ c_str (compileString ["a\x00b.cpp"] [] [] "out.so")
        ≠ compileString ["a\x00b.cpp"] [] [] "out.so" := by
  decide

/-- Claim C9. The two option strings never reach the command: two calls of `RunCompile`
that differ only in the compile-options and link-options strings leave the same
handle and perform the same effects, the command written to `cout` and handed
to `execl` included. -/
theorem C9_options_unused (pipeResult : Option (Int × Int)) (forkResult : Int)
    (d : PlatformCompilerImplData) (S I L : List String) (o : String)
    (co lo co2 lo2 : String) :
    RunCompile pipeResult forkResult d S I L co lo o
      = RunCompile pipeResult forkResult d S I L co2 lo2 o := by
  rfl

/-! ## `RunCompile`: the parent branch and the failure of `pipe` -/

/-- Claim C2. Whatever the handle and the request, when `pipe` succeeds with `(r, w)` and
`fork` returns a positive `p`, `RunCompile` returns with the completion flag
false, the owned process id `p`, the read end `r`, the write end closed and
cleared to 0, the logger and path untouched; the only calls made are `pipe`,
`fork` and `close( w )`: no logger call, and the command is neither written
nor executed. -/
theorem C2_parent_branch (d : PlatformCompilerImplData) (S I L : List String)
    (co lo o : String) (r w p : Int) (hp : 0 < p) :
    (RunCompile (some (r, w)) p d S I L co lo o).1
        = { m_intermediatePath := d.m_intermediatePath
            m_bCompileIsComplete := false
            m_pLogger := d.m_pLogger
            m_ChildForCompilationPID := p
            m_PipeInOut0 := r
            m_PipeInOut1 := 0 }
      ∧ (RunCompile (some (r, w)) p d S I L co lo o).2
        = [Effect.pipe (some (r, w)), Effect.fork p, Effect.close w]
      ∧ (RunCompile (some (r, w)) p d S I L co lo o).2.filter Effect.isLogError = []
      ∧ (RunCompile (some (r, w)) p d S I L co lo o).2.filter Effect.isLogInfo = []
      ∧ (RunCompile (some (r, w)) p d S I L co lo o).2.filter Effect.isCommandUse = [] := by
  have h1 : p ≠ -1 := by omega
  have h2 : p ≠ 0 := by omega
  simp [RunCompile, h1, h2, Effect.isLogError, Effect.isLogInfo, Effect.isCommandUse]

/-- The parent branch at pipe `(3, 4)` and child 42, from a fresh handle. -/
theorem C2_parent_branch_witness :
    (0 : Int) < 42
      ∧ (RunCompile (some (3, 4)) 42 (Initialise true) ["a.cpp"] ["inc"] [] "" "" "out.so").1
        = { m_intermediatePath := "Runtime"
            m_bCompileIsComplete := false
            m_pLogger := true
            m_ChildForCompilationPID := 42
            m_PipeInOut0 := 3
            m_PipeInOut1 := 0 }
      ∧ (RunCompile (some (3, 4)) 42 (Initialise true) ["a.cpp"] ["inc"] [] "" "" "out.so").2
        = [Effect.pipe (some (3, 4)), Effect.fork 42, Effect.close 4] :=
  ⟨by decide,
   (C2_parent_branch (Initialise true) ["a.cpp"] ["inc"] [] "" "" "out.so" 3 4 42
      (by decide)).1,
   (C2_parent_branch (Initialise true) ["a.cpp"] ["inc"] [] "" "" "out.so" 3 4 42
      (by decide)).2.1⟩

/-- Claim C3. On a handle that owns no process and has a logger, when `pipe` fails
`RunCompile` calls `LogError` exactly once and `LogInfo` never, calls `fork`
never, leaves the process id zero and the completion flag false; and the next
`GetIsComplete`, whatever it would meet, returns false, changes nothing and
makes no call at all (no `read`, no `waitpid`). -/
theorem C3_pipe_failure (d : PlatformCompilerImplData) (S I L : List String)
    (co lo o : String) (forkResult : Int) (env : PollEnv)
    (hpid : d.m_ChildForCompilationPID = 0) (hlog : d.m_pLogger = true) :
    ((RunCompile none forkResult d S I L co lo o).2.filter Effect.isLogError).length = 1
      ∧ ((RunCompile none forkResult d S I L co lo o).2.filter Effect.isLogInfo).length = 0
      ∧ ((RunCompile none forkResult d S I L co lo o).2.filter Effect.isFork).length = 0
      ∧ (RunCompile none forkResult d S I L co lo o).1.m_ChildForCompilationPID = 0
      ∧ (RunCompile none forkResult d S I L co lo o).1.m_bCompileIsComplete = false
      ∧ GetIsComplete env (RunCompile none forkResult d S I L co lo o).1
        = (false, (RunCompile none forkResult d S I L co lo o).1, []) := by
  simp [RunCompile, GetIsComplete, hpid, hlog, Effect.isLogError, Effect.isLogInfo,
    Effect.isFork]

/-- A failing `pipe` on a fresh handle with a logger, then a poll that would find data
and an exited child. -/
theorem C3_pipe_failure_witness :
    (Initialise true).m_ChildForCompilationPID = 0
      ∧ (Initialise true).m_pLogger = true
      ∧ ((RunCompile none 42 (Initialise true) ["a.cpp"] [] [] "" "" "out.so").2.filter
          Effect.isLogError).length = 1
      ∧ GetIsComplete pollChildExited
          (RunCompile none 42 (Initialise true) ["a.cpp"] [] [] "" "" "out.so").1
        = (false, (RunCompile none 42 (Initialise true) ["a.cpp"] [] [] "" "" "out.so").1, []) :=
  ⟨rfl, rfl,
   (C3_pipe_failure (Initialise true) ["a.cpp"] [] [] "" "" "out.so" 42 pollChildExited
      rfl rfl).1,
   (C3_pipe_failure (Initialise true) ["a.cpp"] [] [] "" "" "out.so" 42 pollChildExited
      rfl rfl).2.2.2.2.2⟩

/-! ## `GetIsComplete` -/

/-- After `close( a )` and `close( b )` neither `a` nor `b` is an open pipe
descriptor. -/
theorem openPipeFds_after_closes (trace : List Effect) (a b : Int) :
    a ∉ openPipeFds (trace ++ [Effect.close a, Effect.close b])
      ∧ b ∉ openPipeFds (trace ++ [Effect.close a, Effect.close b]) := by
  simp [openPipeFds, List.foldl_append, trackFd, List.mem_filter]

/-- Claim C4. On a handle with the completion flag false and a non-zero process id, when
`waitpid` stores a status that says the child exited normally or was ended by a
signal, `GetIsComplete` returns true and leaves the completion flag true, the
process id zero and both cells of the pipe pair zero; its last calls are
`waitpid` on the owned process, then `close` on the stored read end and `close`
on the stored write end, so that neither stored descriptor is open afterwards,
whatever happened before. -/
theorem C4_exit_observed (env : PollEnv) (d : PlatformCompilerImplData) (s : Int)
    (prior : List Effect)
    (hc : d.m_bCompileIsComplete = false) (hp : d.m_ChildForCompilationPID ≠ 0)
    (hw : env.waitStatus = some s) (hs : WIFEXITED s = true ∨ WIFSIGNALED s = true) :
    (GetIsComplete env d).1 = true
      ∧ (GetIsComplete env d).2.1
        = { m_intermediatePath := d.m_intermediatePath
            m_bCompileIsComplete := true
            m_pLogger := d.m_pLogger
            m_ChildForCompilationPID := 0
            m_PipeInOut0 := 0
            m_PipeInOut1 := 0 }
      ∧ (∃ logged : List Effect,
          (GetIsComplete env d).2.2
            = logged ++ [Effect.waitpid d.m_ChildForCompilationPID,
                Effect.close d.m_PipeInOut0, Effect.close d.m_PipeInOut1])
      ∧ d.m_PipeInOut0 ∉ openPipeFds (prior ++ (GetIsComplete env d).2.2)
      ∧ d.m_PipeInOut1 ∉ openPipeFds (prior ++ (GetIsComplete env d).2.2) := by
  have hcond : (WIFEXITED s || WIFSIGNALED s) = true := by
    rcases hs with h | h <;> simp [h]
  have hrun : GetIsComplete env d
      = (true,
         { m_intermediatePath := d.m_intermediatePath
           m_bCompileIsComplete := true
           m_pLogger := d.m_pLogger
           m_ChildForCompilationPID := 0
           m_PipeInOut0 := 0
           m_PipeInOut1 := 0 },
         ((if d.m_pLogger then
             drain d.m_PipeInOut0 env.stackAfter env.stackBuffer env.reads
           else []) ++ [Effect.waitpid d.m_ChildForCompilationPID])
           ++ [Effect.close d.m_PipeInOut0, Effect.close d.m_PipeInOut1]) := by
    simp only [GetIsComplete, hc, hw, hcond]
    simp [hp]
  rw [hrun]
  refine ⟨rfl, rfl,
    ⟨if d.m_pLogger then drain d.m_PipeInOut0 env.stackAfter env.stackBuffer env.reads
      else [], by simp⟩, ?_, ?_⟩
  · rw [← List.append_assoc]
    exact (openPipeFds_after_closes _ _ _).1
  · rw [← List.append_assoc]
    exact (openPipeFds_after_closes _ _ _).2

/-- Claim C6. On a handle whose completion flag is true or whose process id is zero,
`GetIsComplete` returns the completion flag, leaves the handle as it was and
makes no call at all (no `read`, no `waitpid`, no `close`, no logger call).
Hence a freshly initialised handle polls false; and once a poll has returned
true, any number of further polls leave the handle as that poll left it and
every one of them returns true. -/
theorem C6_idle_poll :
    (∀ (env : PollEnv) (d : PlatformCompilerImplData),
        d.m_bCompileIsComplete = true ∨ d.m_ChildForCompilationPID = 0 →
        GetIsComplete env d = (d.m_bCompileIsComplete, d, []))
      ∧ (∀ (env : PollEnv) (pLogger : Bool),
        GetIsComplete env (Initialise pLogger) = (false, Initialise pLogger, []))
      ∧ (∀ (env : PollEnv) (d : PlatformCompilerImplData),
        (GetIsComplete env d).1 = true →
        ∀ (later : List PollEnv) (next : PollEnv),
          later.foldl (fun h e => (GetIsComplete e h).2.1) (GetIsComplete env d).2.1
              = (GetIsComplete env d).2.1
            ∧ GetIsComplete next (GetIsComplete env d).2.1
              = (true, (GetIsComplete env d).2.1, [])) := by
  have idle : ∀ (env : PollEnv) (d : PlatformCompilerImplData),
      d.m_bCompileIsComplete = true ∨ d.m_ChildForCompilationPID = 0 →
      GetIsComplete env d = (d.m_bCompileIsComplete, d, []) := by
    intro env d h
    rcases h with h | h <;> simp [GetIsComplete, h]
  have done : ∀ (env : PollEnv) (d : PlatformCompilerImplData),
      (GetIsComplete env d).1 = true →
      (GetIsComplete env d).2.1.m_bCompileIsComplete = true := by
    intro env d h
    by_cases hrunning :
        (!d.m_bCompileIsComplete && d.m_ChildForCompilationPID != 0) = true
    · by_cases hexit :
          (WIFEXITED (match env.waitStatus with
              | some s => s
              | none => env.stackStatus)
            || WIFSIGNALED (match env.waitStatus with
              | some s => s
              | none => env.stackStatus)) = true
      · simp only [GetIsComplete, hrunning, hexit, if_true]
      · simp only [GetIsComplete, hrunning, hexit, if_true] at h
        simp at hrunning
        simp [hrunning.1] at h
    · simp only [GetIsComplete, hrunning] at h ⊢
      simpa using h
  refine ⟨idle, fun env pLogger => idle env _ (Or.inr rfl), ?_⟩
  intro env d h later next
  have hflag := done env d h
  constructor
  · induction later with
    | nil => rfl
    | cons e es ih =>
      rw [List.foldl_cons, idle e _ (Or.inl hflag)]
      exact ih
  · rw [idle next _ (Or.inl hflag), hflag]

/-- The poll `pollChildExited` on `runningHandle`. -/
theorem C4_exit_observed_witness :
    runningHandle.m_bCompileIsComplete = false
      ∧ runningHandle.m_ChildForCompilationPID ≠ 0
      ∧ pollChildExited.waitStatus = some 0
      ∧ (WIFEXITED 0 = true ∨ WIFSIGNALED 0 = true)
      ∧ (GetIsComplete pollChildExited runningHandle).1 = true
      ∧ (GetIsComplete pollChildExited runningHandle).2.1
        = { m_intermediatePath := "Runtime"
            m_bCompileIsComplete := true
            m_pLogger := true
            m_ChildForCompilationPID := 0
            m_PipeInOut0 := 0
            m_PipeInOut1 := 0 } :=
  ⟨rfl, by decide, rfl, Or.inl (by decide),
   (C4_exit_observed pollChildExited runningHandle 0 [] rfl (by decide) rfl
      (Or.inl (by decide))).1,
   (C4_exit_observed pollChildExited runningHandle 0 [] rfl (by decide) rfl
      (Or.inl (by decide))).2.1⟩

/-- A poll on a fresh handle, and a second poll after `pollChildExited` returned true. -/
theorem C6_idle_poll_witness :
    (Initialise true).m_ChildForCompilationPID = 0
      ∧ GetIsComplete pollChildExited (Initialise true) = (false, Initialise true, [])
      ∧ (GetIsComplete pollChildExited runningHandle).1 = true
      ∧ GetIsComplete pollChildExited (GetIsComplete pollChildExited runningHandle).2.1
        = (true, (GetIsComplete pollChildExited runningHandle).2.1, []) :=
  ⟨rfl,
   C6_idle_poll.1 pollChildExited (Initialise true) (Or.inr rfl),
   by decide,
   (C6_idle_poll.2.2 pollChildExited runningHandle (by decide) [] pollChildExited).2⟩

/-! ## Where the code departs from its description -/

/-- Claim C5, evaluated. `runningHandle` is what `Initialise` and a parent-branch launch
leave.  When `waitpid` returns 0 and stores nothing, and `procStatus` happens to
hold 0, `GetIsComplete` returns true, sets the completion flag, clears the
process id and closes descriptors 3 and 0: the child is treated as exited. -/
theorem C5_unstored_status_read :
    (run true [launchOk]).1 = runningHandle
      ∧ pollChildRunning.waitRet = 0
      ∧ pollChildRunning.waitStatus = none
      ∧ GetIsComplete pollChildRunning runningHandle
        = (true,
           { m_intermediatePath := "Runtime"
             m_bCompileIsComplete := true
             m_pLogger := true
             m_ChildForCompilationPID := 0
             m_PipeInOut0 := 0
             m_PipeInOut1 := 0 },
           [Effect.read 3 [], Effect.waitpid 42, Effect.close 3, Effect.close 0]) := by
  decide

/-- Claim C7, evaluated. In one poll `read` delivers `hello\n` and then `hi\n` into a
zero-filled `buffer`.  The second `LogInfo` receives `hi\nlo\n`: the tail of the
first chunk is still in `buffer` and is delivered again, so the logged text is
not the text read. -/
theorem C7_stale_bytes_logged :
    bytesRead (GetIsComplete pollChildExited runningHandle).2.2
        = [104, 101, 108, 108, 111, 10, 104, 105, 10]
      ∧ loggedInfo (GetIsComplete pollChildExited runningHandle).2.2
        = [104, 101, 108, 108, 111, 10, 104, 105, 10, 108, 111, 10]
      ∧ loggedInfo (GetIsComplete pollChildExited runningHandle).2.2
        ≠ bytesRead (GetIsComplete pollChildExited runningHandle).2.2 := by
  decide

/-- Claim C8, evaluated. After `Initialise` and a launch in which `pipe` hands out 3 and 4
and `fork` fails, the handle owns no process, yet both descriptors are still
open: the branch for a failed `fork` returns without closing them. -/
theorem C8_fork_failure_leaks :
    (run true [launchForkFails]).1.m_ChildForCompilationPID = 0
      ∧ (run true [launchForkFails]).2
        = [Effect.pipe (some (3, 4)), Effect.fork (-1),
           Effect.logError
             "Error in Compiler::RunCompile, cannot fork() process - perhaps insufficient memory?\n"]
      ∧ openPipeFds (run true [launchForkFails]).2 = [3, 4] := by
  decide

/-- Claim C10, evaluated. After `Initialise`, a parent-branch launch with pipe `(3, 4)` and
the poll that sees the child exit, the descriptors closed are 4, 3 and 0, in
that order; 0 was never handed out by `pipe`. -/
theorem C10_closes_descriptor_zero :
    closedFds (run true [launchOk, Call.getIsComplete pollChildExited]).2 = [4, 3, 0]
      ∧ pipeFds (run true [launchOk, Call.getIsComplete pollChildExited]).2 = [3, 4]
      ∧ strayCloses [] (run true [launchOk, Call.getIsComplete pollChildExited]).2 = [0]
      ∧ (0 : Int) ∉ pipeFds (run true [launchOk, Call.getIsComplete pollChildExited]).2 := by
  decide

end Compiler
